import Mathlib

/-!
Shallow embedding, in Lean 4, of two components of the diun repository:

* internal/notif/webhook/client.go — the webhook notification dispatcher
  (type Client, methods Name and Send);
* the image CLI command file (ImageListCmd.Run, ImageInspectCmd.Run,
  ImageRemoveCmd.Run, ImagePruneCmd.Run).

External collaborators (the message renderer, the HTTP transport, the gRPC
connection and remote image service, the interactive confirmation prompt,
the protojson marshaller) are modelled as oracles: each run function takes
the outcome every external call would produce and threads it through the
same control flow as the Go source.  Printed output is recorded
structurally; the out-of-scope table-rendering and prompt libraries are not
modelled beyond the data handed to them.
-/

/-- Decidable equality for Except, used to evaluate concrete outcomes. -/
instance {ε α : Type} [DecidableEq ε] [DecidableEq α] : DecidableEq (Except ε α) := fun x y =>
  match x, y with
  | .ok a, .ok b =>
    if h : a = b then isTrue (by rw [h]) else isFalse (fun he => h (Except.ok.inj he))
  | .error a, .error b =>
    if h : a = b then isTrue (by rw [h]) else isFalse (fun he => h (Except.error.inj he))
  | .ok _, .error _ => isFalse (fun he => Except.noConfusion he)
  | .error _, .ok _ => isFalse (fun he => Except.noConfusion he)

/-! ## HTTP header model (net/http Header, net/textproto canonical keys)

Go's http.Header is a map from canonical MIME header keys to value lists.
Header.Add appends a value under the canonical key, Header.Set replaces all
values under the canonical key by a single one, Header.Get returns the first
value under the canonical key.  The map is modelled as an association list
of (canonical key, value) pairs. -/

/-- Character class of Go net/textproto validHeaderFieldByte: digits,
letters, and the token characters of RFC 7230. -/
def validHeaderFieldChar (c : Char) : Bool :=
  let n := c.toNat
  (48 ≤ n && n ≤ 57) || (65 ≤ n && n ≤ 90) || (97 ≤ n && n ≤ 122) ||
    ([33, 35, 36, 37, 38, 39, 42, 43, 45, 46, 94, 95, 96, 124, 126].contains n)

/-- Case-normalisation loop of Go net/textproto canonicalMIMEHeaderKey: the
first character and every character following a hyphen is upper-cased, every
other character is lower-cased. -/
def canonChars : Bool → List Char → List Char
  | _, [] => []
  | upper, c :: cs =>
    let c := if upper then c.toUpper else c.toLower
    c :: canonChars (c == '-') cs

/-- Go net/textproto CanonicalMIMEHeaderKey: keys holding any invalid
character are returned unchanged, otherwise the case-normalisation is
applied. -/
def canonicalMIMEHeaderKey (s : String) : String :=
  if s.data.all validHeaderFieldChar then String.mk (canonChars true s.data) else s

/-- Model of Go http.Header: an association list of canonical-key/value
pairs (one pair per added value). -/
abbrev HeaderMap : Type := List (String × String)

/-- Go Header.Add: appends one value under the canonical key. -/
def headerAdd (h : HeaderMap) (k v : String) : HeaderMap :=
  h ++ [(canonicalMIMEHeaderKey k, v)]

/-- Go Header.Set: deletes every value stored under the canonical key and
stores the single given value. -/
def headerSet (h : HeaderMap) (k v : String) : HeaderMap :=
  let ck := canonicalMIMEHeaderKey k
  List.filter (fun kv => kv.1 != ck) h ++ [(ck, v)]

/-- Go Header.Get: the first value stored under the canonical key, if any. -/
def headerGet (h : HeaderMap) (k : String) : Option String :=
  let ck := canonicalMIMEHeaderKey k
  (List.filter (fun kv => kv.1 == ck) h).head?.map (fun kv => kv.2)

/-! ## Webhook dispatcher (internal/notif/webhook/client.go) -/

/-- Configuration model.NotifWebhook as used by Client.Send: endpoint URI,
custom header map and delivery timeout.  The Go header field is a map whose
iteration order is unspecified; it is modelled as a list of key/value pairs,
quantifying over every iteration order. -/
structure NotifWebhook where
  endpoint : String
  headers : List (String × String)
  timeout : Nat
deriving DecidableEq

/-- Metadata model.Meta as read by Client.Send (only the user agent is
consulted). -/
structure Meta where
  userAgent : String
deriving DecidableEq

/-- Error classes Client.Send can return: a rendering error (msg.New or
RenderJSON), a request-construction error (http.NewRequestWithContext), the
deadline-exceeded cause installed by context.WithTimeoutCause, or any other
transport error returned by the HTTP client. -/
inductive SendErr where
  | renderErr : String → SendErr
  | requestErr : String → SendErr
  | deadlineExceeded : SendErr
  | transportErr : String → SendErr
deriving DecidableEq

/-- An outbound HTTP request as built by Client.Send. -/
structure HttpRequest where
  method : String
  url : String
  body : List Nat
  header : HeaderMap
deriving DecidableEq

/-- Oracle outcomes of the external calls Client.Send performs, in source
order: msg.New, message.RenderJSON (the rendered body bytes),
http.NewRequestWithContext, and the transport exchange hc.Do — the latter
split into the wall time the attempt takes (elapsed) and the outcome the
transport would deliver were the deadline not hit (a status code, or a
transport failure). -/
structure SendEnv where
  msgNew : Except String Unit
  renderJSON : Except String (List Nat)
  newRequest : Except String Unit
  elapsed : Nat
  transport : Except String Nat
deriving DecidableEq

/-- Result of one Client.Send call: the requests handed to the transport
(at most one) and the returned error value. -/
structure SendOutcome where
  calls : List HttpRequest
  result : Except SendErr Unit
deriving DecidableEq

/-- Shallow embedding of Client.Send (client.go lines 37-76): render the
message, build the POST request, add every configured custom header, set
User-Agent to the configured agent, and perform the exchange under the
configured timeout; a response, whatever its status code, yields success. -/
def send (cfg : NotifWebhook) (meta : Meta) (env : SendEnv) : SendOutcome :=
  match env.msgNew with
  | .error e => ⟨[], .error (.renderErr e)⟩
  | .ok _ =>
    match env.renderJSON with
    | .error e => ⟨[], .error (.renderErr e)⟩
    | .ok body =>
      match env.newRequest with
      | .error e => ⟨[], .error (.requestErr e)⟩
      | .ok _ =>
        let hdr : HeaderMap :=
          if cfg.headers.length > 0 then
            cfg.headers.foldl (fun h kv => headerAdd h kv.1 kv.2) ([] : HeaderMap)
          else ([] : HeaderMap)
        let hdr := headerSet hdr "User-Agent" meta.userAgent
        let req : HttpRequest := ⟨"POST", cfg.endpoint, body, hdr⟩
        if cfg.timeout ≤ env.elapsed then
          ⟨[req], .error .deadlineExceeded⟩
        else
          match env.transport with
          | .error e => ⟨[req], .error (.transportErr e)⟩
          | .ok _ => ⟨[req], .ok ()⟩

theorem headerGet_headerSet (h : HeaderMap) (k v : String) :
    headerGet (headerSet h k v) k = some v := by
  unfold headerGet headerSet
  have hnil : ∀ l : HeaderMap,
      List.filter (fun kv => kv.1 == canonicalMIMEHeaderKey k)
        (List.filter (fun kv => kv.1 != canonicalMIMEHeaderKey k) l) = [] := by
    intro l
    induction l with
    | nil => rfl
    | cons kv t ih =>
      by_cases hk : kv.1 = canonicalMIMEHeaderKey k
      · simp [List.filter_cons, hk, ih]
      · simp [List.filter_cons, hk, ih]
  simp [List.filter_append, hnil h, List.filter_cons]

/-! ## Size formatting (docker/go-units HumanSize)

units.HumanSize(f) is CustomSize with format "%.4g%s", base 1000 and the
decimal unit names.  The CLI always calls it on float64(n) for an integral
byte count n, so it is modelled here over integers with exact rational
arithmetic for the mantissa (the binary rounding of float64 division is not
modelled; it only differs in digits beyond the fourth significant one). -/

/-- Unit names of docker/go-units decimapAbbrs. -/
def decimapAbbrs : List String :=
  ["B", "kB", "MB", "GB", "TB", "PB", "EB", "ZB", "YB"]

/-- Division loop of go-units getSizeAndUnit: divide by the base while the
size is at least the base and unit names remain; returns the unit index.
The index is bounded by 8, so a fuel of 8 iterations is exact. -/
def sizeUnitIdx : Nat → Nat → Nat → Nat
  | 0, _, i => i
  | fuel + 1, n, i => if 1000 ≤ n ∧ i < 8 then sizeUnitIdx fuel (n / 1000) (i + 1) else i

/-- Round a nonnegative rational p/q to the nearest integer, ties to even
(the rounding applied by %g formatting). -/
def roundHalfEven (p q : Nat) : Nat :=
  let d := p / q
  let r := p % q
  if 2 * r < q then d
  else if q < 2 * r then d + 1
  else if d % 2 = 0 then d else d + 1

/-- Left-pad a digit list with zeros to the given width. -/
def padLeftZeros (k : Nat) (cs : List Char) : List Char :=
  List.replicate (k - cs.length) '0' ++ cs

/-- Drop trailing zeros of a fraction digit list (%g trims them). -/
def stripTrailingZeros (cs : List Char) : List Char :=
  (cs.reverse.dropWhile (fun c => c == '0')).reverse

/-- Fixed-point branch of %.4g for the rational p/q: round at the given
number of decimals, print the integer part, a point and the trimmed
fraction digits. -/
def fmt4gFixed (p q decimals : Nat) : String :=
  let r := roundHalfEven (p * 10 ^ decimals) q
  let whole := r / 10 ^ decimals
  let frac := r % 10 ^ decimals
  let fracDigits := stripTrailingZeros (padLeftZeros decimals (Nat.repr frac).data)
  if fracDigits.isEmpty then Nat.repr whole
  else Nat.repr whole ++ "." ++ String.mk fracDigits

/-- Exponent suffix of %g scientific notation: at least two digits. -/
def expSuffix (e : Nat) : String :=
  if e < 10 then "e+0" ++ Nat.repr e else "e+" ++ Nat.repr e

/-- Model of Sprintf("%.4g", p/q) for a nonnegative rational p/q that is
zero or at least one (the only mantissas go-units produces): four
significant digits, fixed notation below 10000 and scientific notation
above, trailing zeros trimmed. -/
def fmt4g (p q : Nat) : String :=
  if p = 0 then "0"
  else
    let ip := p / q
    let e := (Nat.repr ip).length - 1
    if ip < 10000 then fmt4gFixed p q (3 - e)
    else
      let r := roundHalfEven (p * 1000) (q * 10 ^ e)
      let r2 := if 10000 ≤ r then r / 10 else r
      let e2 := if 10000 ≤ r then e + 1 else e
      let mantissa := stripTrailingZeros (padLeftZeros 3 (Nat.repr (r2 % 1000)).data)
      (if mantissa.isEmpty then Nat.repr (r2 / 1000)
       else Nat.repr (r2 / 1000) ++ "." ++ String.mk mantissa) ++ expSuffix e2

/-- Model of units.HumanSize(float64(n)) for an integral byte count n: pick
the unit by repeated division by 1000, format the mantissa with %.4g and
append the unit name.  A negative count never reaches the division loop and
keeps the plain byte unit, as in the Go source. -/
def humanSize (n : Int) : String :=
  if n < 0 then "-" ++ fmt4g n.natAbs 1 ++ "B"
  else
    let i := sizeUnitIdx 8 n.toNat 0
    fmt4g n.toNat (1000 ^ i) ++ decimapAbbrs.getD i "B"

/-! ## Inventory client data model (pb image service messages) -/

/-- One tagged manifest of an image (pb.Manifest): tag, creation timestamp
(modelled as an integer instant), content digest and size in bytes. -/
structure Manifest where
  tag : String
  created : Int
  digest : String
  size : Int
deriving DecidableEq

/-- One tracked image of the ImageList response: name, manifest count and
latest manifest summary. -/
structure Image where
  name : String
  manifestsCount : Nat
  latest : Manifest
deriving DecidableEq

/-- One image entry of the ImagePrune response: the manifests the remote
store removed for that image (only the manifest list is consulted). -/
structure PrunedImage where
  manifests : List Manifest
deriving DecidableEq

/-- One recorded print of a command: a plain message line, the raw
pretty-printed JSON bytes, or a rendered table (header cells, structural
rows — one per record, rendered by the out-of-scope table library — and
footer cells). -/
inductive CmdOutput where
  | message : String → CmdOutput
  | rawJSON : List Nat → CmdOutput
  | listTable : List String → List Image → List String → CmdOutput
  | inspectTable : List String → List Manifest → List String → CmdOutput
  | removeTable : List String → List Manifest → List String → CmdOutput
  | pruneTable : List String → List Manifest → List String → CmdOutput
deriving DecidableEq

/-- Result of one CLI command run: how many calls reached the remote image
service, everything printed in order, and the returned error value. -/
structure CmdOutcome where
  remoteCalls : Nat
  printed : List CmdOutput
  result : Except String Unit
deriving DecidableEq

/-- Bytes actually printed by the raw branch: protojson.Marshal's bytes,
with a marshalling error discarded (b, _ := protojson.Marshal(...)) leaving
nil bytes. -/
def marshalBytes : Except String (List Nat) → List Nat
  | .ok b => b
  | .error _ => []

/-! ## Sorting (sort.Slice calls of the list and inspect commands)

sort.Slice is an unstable comparison sort; it is modelled by Mathlib's
insertionSort over the non-strict counterpart of the source's less
function.  For slices shorter than twelve elements Go's algorithm is
exactly insertion sort, so the model agrees with the source there even on
equal keys. -/

/-- Key of the list command's comparator: strings.Map(unicode.ToUpper,
name), compared bytewise — modelled as the upper-cased character list
(Char.toUpper is the ASCII fragment of unicode.ToUpper; UTF-8 byte order
coincides with codepoint order). -/
def upperKey (s : String) : List Char := s.data.map Char.toUpper

/-- Non-strict ordering of images underlying the list command's comparator
upperKey(i.name) < upperKey(j.name). -/
def imageLE (a b : Image) : Prop := upperKey a.name ≤ upperKey b.name

instance (a b : Image) : Decidable (imageLE a b) :=
  inferInstanceAs (Decidable (upperKey a.name ≤ upperKey b.name))

instance : IsTotal Image imageLE :=
  ⟨fun a b => le_total (upperKey a.name) (upperKey b.name)⟩

instance : IsTrans Image imageLE :=
  ⟨fun _ _ _ => le_trans⟩

/-- Local sort of the list command (sort.Slice on il.Images). -/
def imageListSort (l : List Image) : List Image := l.insertionSort imageLE

/-- Non-strict ordering of manifests underlying the inspect command's
comparator Created(i).After(Created(j)): descending creation time. -/
def manifestLE (a b : Manifest) : Prop := b.created ≤ a.created

instance (a b : Manifest) : Decidable (manifestLE a b) :=
  inferInstanceAs (Decidable (b.created ≤ a.created))

instance : IsTotal Manifest manifestLE :=
  ⟨fun a b => le_total b.created a.created⟩

instance : IsTrans Manifest manifestLE :=
  ⟨fun _ _ _ h1 h2 => le_trans h2 h1⟩

/-- Local sort of the inspect command (sort.Slice on ii.Image.Manifests). -/
def imageInspectSort (l : List Manifest) : List Manifest := l.insertionSort manifestLE

/-! ## CLI command runs -/

/-- Oracle outcomes for one list command run: grpc.NewClient, the remote
ImageList call, and the protojson.Marshal of the response. -/
structure ListEnv where
  connect : Except String Unit
  remote : Except String (List Image)
  marshal : Except String (List Nat)
deriving DecidableEq

/-- Shallow embedding of ImageListCmd.Run: dial, call ImageList, sort the
images case-insensitively by name, then print raw JSON, or the
no-image message, or the table with a Total footer. -/
def imageListRun (raw : Bool) (env : ListEnv) : CmdOutcome :=
  match env.connect with
  | .error e => ⟨0, [], .error e⟩
  | .ok _ =>
    match env.remote with
    | .error e => ⟨1, [], .error e⟩
    | .ok images =>
      let images := imageListSort images
      if raw then
        ⟨1, [.rawJSON (marshalBytes env.marshal)], .ok ()⟩
      else if images.length = 0 then
        ⟨1, [.message "No image found in the database"], .ok ()⟩
      else
        ⟨1, [.listTable ["Name", "Manifests Count", "Latest Tag", "Latest Created", "Latest Digest"]
              images
              ["Total", Nat.repr images.length]], .ok ()⟩

/-- Oracle outcomes for one inspect command run: grpc.NewClient, the remote
ImageInspect call (the manifests of the named image), and the
protojson.Marshal of the response. -/
structure InspectEnv where
  connect : Except String Unit
  remote : Except String (List Manifest)
  marshal : Except String (List Nat)
deriving DecidableEq

/-- Shallow embedding of ImageInspectCmd.Run: dial, call ImageInspect, sort
the manifests by descending creation time, then print raw JSON or the
table with a Total footer (no empty-result special case). -/
def imageInspectRun (raw : Bool) (env : InspectEnv) : CmdOutcome :=
  match env.connect with
  | .error e => ⟨0, [], .error e⟩
  | .ok _ =>
    match env.remote with
    | .error e => ⟨1, [], .error e⟩
    | .ok manifests =>
      let manifests := imageInspectSort manifests
      if raw then
        ⟨1, [.rawJSON (marshalBytes env.marshal)], .ok ()⟩
      else
        ⟨1, [.inspectTable ["Tag", "Created", "Digest"]
              manifests
              ["Total", Nat.repr manifests.length]], .ok ()⟩

/-- Oracle outcomes for one remove command run: grpc.NewClient and the
remote ImageRemove call (the manifests the store removed). -/
structure RemoveEnv where
  connect : Except String Unit
  remote : Except String (List Manifest)
deriving DecidableEq

/-- Footer cell text fmt.Sprintf("%d (%s)", n, units.HumanSize(...)). -/
def countSizeFooter (n : Nat) (size : Int) : String :=
  Nat.repr n ++ " (" ++ humanSize size ++ ")"

/-- Shallow embedding of ImageRemoveCmd.Run: dial, call ImageRemove, and
always render the removed-manifest table with the count-and-size footer —
also when nothing was removed. -/
def imageRemoveRun (env : RemoveEnv) : CmdOutcome :=
  match env.connect with
  | .error e => ⟨0, [], .error e⟩
  | .ok _ =>
    match env.remote with
    | .error e => ⟨1, [], .error e⟩
    | .ok manifests =>
      let totalSize := manifests.foldl (fun a m => a + m.size) 0
      ⟨1, [.removeTable ["Tag", "Created", "Digest", "Size"]
            manifests
            ["Total", countSizeFooter manifests.length totalSize]], .ok ()⟩

/-- Oracle outcomes for one prune command run: grpc.NewClient, the
confirmation prompt survey.AskOne (consulted only when force is unset), and
the remote ImagePrune call. -/
structure PruneEnv where
  connect : Except String Unit
  prompt : Except String Bool
  remote : Except String (List PrunedImage)
deriving DecidableEq

/-- Confirmation gate of ImagePruneCmd.Run: with force unset, a prompt
error is returned as an error and a negative answer stops the run; the
returned Bool says whether to proceed to the remote call. -/
def imagePruneProceed (force : Bool) (prompt : Except String Bool) : Except String Bool :=
  if !force then
    match prompt with
    | .error e => .error e
    | .ok confirmed => if !confirmed then .ok false else .ok true
  else .ok true

/-- Shallow embedding of ImagePruneCmd.Run: dial, pass the confirmation
gate, call ImagePrune, then print the nothing-to-remove message on an empty
result or the flattened manifest table with the aggregate footer. -/
def imagePruneRun (force : Bool) (env : PruneEnv) : CmdOutcome :=
  match env.connect with
  | .error e => ⟨0, [], .error e⟩
  | .ok _ =>
    match imagePruneProceed force env.prompt with
    | .error e => ⟨0, [], .error e⟩
    | .ok false => ⟨0, [], .ok ()⟩
    | .ok true =>
      match env.remote with
      | .error e => ⟨1, [], .error e⟩
      | .ok images =>
        if images.length = 0 then
          ⟨1, [.message "Nothing to be removed from the database"], .ok ()⟩
        else
          let rows := (images.map (fun i => i.manifests)).flatten
          let totalSize := images.foldl
            (fun a i => i.manifests.foldl (fun b m => b + m.size) a) 0
          let totalManifest := images.foldl (fun a i => a + i.manifests.length) 0
          ⟨1, [.pruneTable ["Tag", "Created", "Digest", "Size"]
                rows
                ["Total", countSizeFooter totalManifest totalSize]], .ok ()⟩

/-! ## Webhook dispatcher claims -/

/-- C2: for every custom header map H and configured User-Agent string U,
the request delivered by Send carries User-Agent equal to U, even when H
contains a User-Agent key with a different value: custom headers are added
first, then the configured User-Agent overwrites that header. -/
theorem send_userAgent (cfg : NotifWebhook) (meta : Meta) (env : SendEnv)
    (req : HttpRequest) (hreq : req ∈ (send cfg meta env).calls) :
    headerGet req.header "User-Agent" = some meta.userAgent := by
  obtain ⟨mn, rj, nr, el, tr⟩ := env
  cases mn with
  | error e => simp [send] at hreq
  | ok u =>
    cases rj with
    | error e => simp [send] at hreq
    | ok body =>
      cases nr with
      | error e => simp [send] at hreq
      | ok u2 =>
        simp only [send] at hreq
        split at hreq
        · simp at hreq
          subst hreq
          exact headerGet_headerSet _ _ _
        · cases tr with
          | error e =>
            simp at hreq
            subst hreq
            exact headerGet_headerSet _ _ _
          | ok st =>
            simp at hreq
            subst hreq
            exact headerGet_headerSet _ _ _

def sendCfgW : NotifWebhook :=
  ⟨"http://example.invalid/hook", [("User-Agent", "custom-agent")], 5⟩

def sendMetaW : Meta := ⟨"diun/4.0"⟩

def sendEnvW : SendEnv := ⟨.ok (), .ok [123], .ok (), 1, .ok 500⟩

def sendReqW : HttpRequest :=
  ⟨"POST", "http://example.invalid/hook", [123],
    headerSet (headerAdd [] "User-Agent" "custom-agent") "User-Agent" "diun/4.0"⟩

/-- Witness for send_userAgent: a concrete configuration whose custom
headers carry a conflicting User-Agent value still delivers the configured
agent string. -/
theorem send_userAgent_witness :
    headerGet sendReqW.header "User-Agent" = some "diun/4.0" :=
  send_userAgent sendCfgW sendMetaW sendEnvW sendReqW (by decide)

/-- C4: Send succeeds exactly when rendering, request construction and the
deadline-bounded transport exchange all complete, regardless of the
response status code; it fails exactly when one of those stages fails. -/
theorem send_ok_iff (cfg : NotifWebhook) (meta : Meta) (env : SendEnv) :
    (send cfg meta env).result = .ok () ↔
      (env.msgNew.isOk = true ∧ env.renderJSON.isOk = true ∧
       env.newRequest.isOk = true ∧ env.elapsed < cfg.timeout ∧
       env.transport.isOk = true) := by
  obtain ⟨mn, rj, nr, el, tr⟩ := env
  by_cases hel : cfg.timeout ≤ el
  · cases mn <;> cases rj <;> cases nr <;> cases tr <;>
      simp [send, Except.isOk, Except.toBool, hel]
  · cases mn <;> cases rj <;> cases nr <;> cases tr <;>
      simp [send, Except.isOk, Except.toBool, hel]
    omega

/-- C5: an event that fails to render (msg.New or RenderJSON fails) makes
Send return a rendering error and perform no network call. -/
theorem send_renderFailure (cfg : NotifWebhook) (meta : Meta) (env : SendEnv)
    (h : env.msgNew.isOk = false ∨ env.renderJSON.isOk = false) :
    (send cfg meta env).calls = [] ∧
      ∃ e, (send cfg meta env).result = .error (SendErr.renderErr e) := by
  obtain ⟨mn, rj, nr, el, tr⟩ := env
  cases mn with
  | error e => exact ⟨by simp [send], e, by simp [send]⟩
  | ok u =>
    cases rj with
    | error e => exact ⟨by simp [send], e, by simp [send]⟩
    | ok body => simp [Except.isOk, Except.toBool] at h

def sendEnvRenderErrW : SendEnv := ⟨.error "render boom", .ok [], .ok (), 0, .ok 200⟩

/-- Witness for send_renderFailure: a failing msg.New yields a rendering
error and an empty call list. -/
theorem send_renderFailure_witness :
    (send sendCfgW sendMetaW sendEnvRenderErrW).calls = [] ∧
      ∃ e, (send sendCfgW sendMetaW sendEnvRenderErrW).result =
        .error (SendErr.renderErr e) :=
  send_renderFailure sendCfgW sendMetaW sendEnvRenderErrW (Or.inl (by decide))

/-- C7: a delivery attempt that does not complete before the configured
timeout makes Send return the deadline-exceeded error, a value distinct
from every generic transport error. -/
theorem send_deadlineExceeded (cfg : NotifWebhook) (meta : Meta) (env : SendEnv)
    (hm : env.msgNew = .ok ()) (hr : env.renderJSON.isOk = true)
    (hq : env.newRequest = .ok ()) (ht : cfg.timeout ≤ env.elapsed) :
    (send cfg meta env).result = .error SendErr.deadlineExceeded ∧
      ∀ s, SendErr.deadlineExceeded ≠ SendErr.transportErr s := by
  obtain ⟨mn, rj, nr, el, tr⟩ := env
  simp only at hm hq ht
  subst hm
  subst hq
  cases rj with
  | error e => simp [Except.isOk, Except.toBool] at hr
  | ok body =>
    refine ⟨?_, fun s => by simp⟩
    simp [send, ht]

def sendCfgDeadlineW : NotifWebhook := ⟨"http://example.invalid/hook", [], 5⟩

def sendEnvDeadlineW : SendEnv := ⟨.ok (), .ok [123], .ok (), 10, .ok 200⟩

/-- Witness for send_deadlineExceeded: an attempt taking longer than the
configured timeout returns the deadline-exceeded error. -/
theorem send_deadlineExceeded_witness :
    (send sendCfgDeadlineW sendMetaW sendEnvDeadlineW).result =
      .error SendErr.deadlineExceeded ∧
      ∀ s, SendErr.deadlineExceeded ≠ SendErr.transportErr s :=
  send_deadlineExceeded sendCfgDeadlineW sendMetaW sendEnvDeadlineW
    (by decide) (by decide) (by decide) (by decide)

/-! ## Order helper lemmas -/

/-- Two sorted lists that are permutations of each other and whose elements
are pairwise antisymmetric under the sort relation are equal. -/
theorem sorted_perm_unique {α : Type} {r : α → α → Prop} :
    ∀ {l₁ l₂ : List α}, l₁.Perm l₂ → l₁.Pairwise r → l₂.Pairwise r →
      (∀ a ∈ l₁, ∀ b ∈ l₁, r a b → r b a → a = b) → l₁ = l₂ := by
  intro l₁
  induction l₁ with
  | nil =>
    intro l₂ hp _ _ _
    exact hp.symm.eq_nil.symm
  | cons a t ih =>
    intro l₂ hp hs₁ hs₂ hanti
    cases l₂ with
    | nil => exact (List.cons_ne_nil a t hp.eq_nil).elim
    | cons b t₂ =>
      have hab : a = b := by
        rcases List.mem_cons.mp (hp.symm.mem_iff.mp (List.mem_cons_self b t₂)) with hb | hb
        · exact hb.symm
        · rcases List.mem_cons.mp (hp.mem_iff.mp (List.mem_cons_self a t)) with ha | ha
          · exact ha
          · exact hanti a (List.mem_cons_self a t) b (List.mem_cons_of_mem a hb)
              (List.rel_of_pairwise_cons hs₁ hb)
              (List.rel_of_pairwise_cons hs₂ ha)
      subst hab
      have heq : t = t₂ := ih hp.cons_inv hs₁.tail hs₂.tail
        (fun x hx y hy hxy hyx =>
          hanti x (List.mem_cons_of_mem a hx) y (List.mem_cons_of_mem a hy) hxy hyx)
      rw [heq]

/-- Within a list whose keys are pairwise distinct, equal keys identify
equal elements. -/
theorem eq_of_mem_pairwise_ne {α β : Type} {f : α → β} :
    ∀ {l : List α}, l.Pairwise (fun a b => f a ≠ f b) →
      ∀ {a}, a ∈ l → ∀ {b}, b ∈ l → f a = f b → a = b := by
  intro l
  induction l with
  | nil =>
    intro _ a ha
    cases ha
  | cons x t ih =>
    intro hpw a ha b hb hf
    rcases List.mem_cons.mp ha with h1 | h1
    · rcases List.mem_cons.mp hb with h2 | h2
      · rw [h1, h2]
      · subst h1
        exact absurd hf (List.rel_of_pairwise_cons hpw h2)
    · rcases List.mem_cons.mp hb with h2 | h2
      · subst h2
        exact absurd hf.symm (List.rel_of_pairwise_cons hpw h1)
      · exact ih hpw.tail h1 h2 hf

/-! ## Inventory client claims -/

/-- C3 (amended): the list command outputs the images ordered ascending by
upper-cased name and contains each input record exactly once; when no two
records share an upper-cased name, two runs fed the same multiset in
different remote orders produce the same output. -/
theorem imageList_sorted_deterministic (imgs1 imgs2 : List Image)
    (m : Except String (List Nat)) :
    (imageListSort imgs1).Pairwise imageLE ∧
    (imageListSort imgs1).Perm imgs1 ∧
    (imgs1.Perm imgs2 →
      imgs1.Pairwise (fun a b => upperKey a.name ≠ upperKey b.name) →
      imageListRun false ⟨.ok (), .ok imgs1, m⟩ =
        imageListRun false ⟨.ok (), .ok imgs2, m⟩) := by
  have hs1 : (imageListSort imgs1).Pairwise imageLE :=
    List.sorted_insertionSort imageLE imgs1
  have hs2 : (imageListSort imgs2).Pairwise imageLE :=
    List.sorted_insertionSort imageLE imgs2
  have hp1 : (imageListSort imgs1).Perm imgs1 := List.perm_insertionSort imageLE imgs1
  have hp2 : (imageListSort imgs2).Perm imgs2 := List.perm_insertionSort imageLE imgs2
  refine ⟨hs1, hp1, fun hperm hkeys => ?_⟩
  have heq : imageListSort imgs1 = imageListSort imgs2 := by
    apply sorted_perm_unique (hp1.trans (hperm.trans hp2.symm)) hs1 hs2
    intro a ha b hb hab hba
    have ha1 : a ∈ imgs1 := hp1.mem_iff.mp ha
    have hb1 : b ∈ imgs1 := hp1.mem_iff.mp hb
    have hk : upperKey a.name = upperKey b.name := le_antisymm hab hba
    exact eq_of_mem_pairwise_ne hkeys ha1 hb1 hk
  simp only [imageListRun]
  rw [heq]

def manifestW : Manifest := ⟨"latest", 0, "sha256:aaaa", 10⟩

def imageAlpineW : Image := ⟨"alpine", 1, manifestW⟩

def imageZebraW : Image := ⟨"Zebra", 3, manifestW⟩

/-- Witness for imageList_sorted_deterministic: the two-image multiset
alpine/Zebra fed in both remote orders. -/
theorem imageList_sorted_deterministic_witness :
    (imageListSort [imageZebraW, imageAlpineW]).Pairwise imageLE ∧
    (imageListSort [imageZebraW, imageAlpineW]).Perm [imageZebraW, imageAlpineW] ∧
    imageListRun false ⟨.ok (), .ok [imageZebraW, imageAlpineW], .ok []⟩ =
      imageListRun false ⟨.ok (), .ok [imageAlpineW, imageZebraW], .ok []⟩ :=
  have h := imageList_sorted_deterministic [imageZebraW, imageAlpineW]
    [imageAlpineW, imageZebraW] (.ok [])
  ⟨h.1, h.2.1, h.2.2 (by decide) (by decide)⟩

def imageLowerW : Image := ⟨"a", 1, manifestW⟩

def imageUpperW : Image := ⟨"A", 1, manifestW⟩

/-- Counterexample to C3 as stated: two distinct names sharing the same
upper-cased form tie under the comparator, so the same multiset fed in two
remote orders yields two different outputs. -/
theorem imageList_order_dependent :
    ([imageLowerW, imageUpperW] : List Image).Perm [imageUpperW, imageLowerW] ∧
    imageListRun false ⟨.ok (), .ok [imageLowerW, imageUpperW], .ok []⟩ ≠
      imageListRun false ⟨.ok (), .ok [imageUpperW, imageLowerW], .ok []⟩ := by
  decide

/-- C6: the inspect command prints the manifests ordered by descending
creation time (ties in either relative order) and contains each manifest of
the response exactly once — none dropped, none duplicated. -/
theorem imageInspect_descending (ms : List Manifest) (m : Except String (List Nat)) :
    (imageInspectRun false ⟨.ok (), .ok ms, m⟩).printed =
      [CmdOutput.inspectTable ["Tag", "Created", "Digest"] (imageInspectSort ms)
        ["Total", Nat.repr (imageInspectSort ms).length]] ∧
    (imageInspectSort ms).Pairwise manifestLE ∧
    (imageInspectSort ms).Perm ms :=
  ⟨rfl, List.sorted_insertionSort manifestLE ms, List.perm_insertionSort manifestLE ms⟩

/-- C10: in raw mode, the list and inspect commands print the marshalled
bytes with a marshalling error discarded (empty bytes then) and return
success unconditionally once the remote call has succeeded. -/
theorem rawMode_ignores_marshal (imgs : List Image) (ms : List Manifest)
    (m1 m2 : Except String (List Nat)) :
    imageListRun true ⟨.ok (), .ok imgs, m1⟩ =
      ⟨1, [.rawJSON (marshalBytes m1)], .ok ()⟩ ∧
    imageInspectRun true ⟨.ok (), .ok ms, m2⟩ =
      ⟨1, [.rawJSON (marshalBytes m2)], .ok ()⟩ :=
  ⟨rfl, rfl⟩

/-- C9: the remove command has no empty-result special case: a successful
remote call removing zero manifests still renders the table with its header
and the footer Total 0 (0B). -/
theorem imageRemove_empty_renders_table (env : RemoveEnv)
    (hc : env.connect = .ok ()) (hr : env.remote = .ok []) :
    imageRemoveRun env =
      ⟨1, [.removeTable ["Tag", "Created", "Digest", "Size"] []
            ["Total", "0 (0B)"]], .ok ()⟩ := by
  obtain ⟨c, r⟩ := env
  dsimp only at hc hr
  subst hc
  subst hr
  decide

def removeEnvW : RemoveEnv := ⟨.ok (), .ok []⟩

/-- Witness for imageRemove_empty_renders_table at the concrete
empty-result environment. -/
theorem imageRemove_empty_renders_table_witness :
    imageRemoveRun removeEnvW =
      ⟨1, [.removeTable ["Tag", "Created", "Digest", "Size"] []
            ["Total", "0 (0B)"]], .ok ()⟩ :=
  imageRemove_empty_renders_table removeEnvW rfl rfl

/-- C8: a prune run that passes the confirmation gate and whose remote call
removes nothing prints the distinct nothing-to-remove message — no table,
no 0 (0B) footer — and returns success. -/
theorem imagePrune_empty_message (force : Bool) (env : PruneEnv)
    (hc : env.connect = .ok ())
    (hp : imagePruneProceed force env.prompt = .ok true)
    (hr : env.remote = .ok []) :
    imagePruneRun force env =
      ⟨1, [.message "Nothing to be removed from the database"], .ok ()⟩ := by
  obtain ⟨c, p, r⟩ := env
  dsimp only at hc hp hr
  subst hc
  subst hr
  simp [imagePruneRun, hp]

def pruneEnvEmptyW : PruneEnv := ⟨.ok (), .ok true, .ok []⟩

/-- Witness for imagePrune_empty_message: an unforced run whose prompt is
answered yes and whose remote call removes nothing. -/
theorem imagePrune_empty_message_witness :
    imagePruneRun false pruneEnvEmptyW =
      ⟨1, [.message "Nothing to be removed from the database"], .ok ()⟩ :=
  imagePrune_empty_message false pruneEnvEmptyW rfl rfl rfl

/-- Counterexample to C1 as stated: with force unset and an erroring
prompt, the run performs no remote call but returns the prompt error rather
than success. -/
theorem imagePrune_prompt_error_not_success :
    (imagePruneRun false ⟨.ok (), .error "prompt failed", .ok []⟩).remoteCalls = 0 ∧
    (imagePruneRun false ⟨.ok (), .error "prompt failed", .ok []⟩).result ≠ .ok () := by
  decide

/-- C1 (amended): with force unset, a negative prompt answer aborts with
zero remote calls and success, while a prompt error aborts with zero remote
calls and returns that error. -/
theorem imagePrune_gate (env : PruneEnv) (hc : env.connect = .ok ()) :
    (env.prompt = .ok false → imagePruneRun false env = ⟨0, [], .ok ()⟩) ∧
    (∀ e, env.prompt = .error e → imagePruneRun false env = ⟨0, [], .error e⟩) := by
  obtain ⟨c, p, r⟩ := env
  dsimp only at hc
  subst hc
  constructor
  · intro hp
    dsimp only at hp
    subst hp
    rfl
  · intro e hp
    dsimp only at hp
    subst hp
    rfl

def pruneEnvNoW : PruneEnv := ⟨.ok (), .ok false, .ok []⟩

/-- Witness for imagePrune_gate: a declined prompt yields a silent
successful no-op. -/
theorem imagePrune_gate_witness :
    imagePruneRun false pruneEnvNoW = ⟨0, [], .ok ()⟩ :=
  (imagePrune_gate pruneEnvNoW rfl).1 rfl
